import Mathlib

/- Shallow embedding of the anchor-generation core of the pytorch_retinanet
repository: the module pytorch_retinanet/anchors.py (parameter broadcasting,
cell-anchor synthesis, grid offsets, shift-and-tile, forward) together with
the passive configuration constants of src/config.py.

Real-number arithmetic models the ideal semantics of the double-precision
floating-point computations of the source.  Python-level runtime failures
(the assertions of _broadcast_params, ZeroDivisionError from a zero divisor,
ValueError from math.sqrt of a negative number, and the bound check of
torch.arange, which rejects an upper bound inconsistent with the step sign)
are modelled with Except. -/

noncomputable section

/-- Axis-aligned box in XYXY format: one row (x0, y0, x1, y1) of the anchor
tensors of the source. -/
structure Box where
  x0 : ℝ
  y0 : ℝ
  x1 : ℝ
  y1 : ℝ

/-- Runtime failures of the Python source.  The assertion failures of
_broadcast_params keep the data interpolated into their messages (the
parameter name, and for a length mismatch the two lengths). -/
inductive PyError where
  | emptyParams (name : String)
  | lengthMismatch (name : String) (got expected : ℕ)
  | zeroDivision
  | mathDomain
  | arangeZeroStep
  | arangeInconsistentBounds
  | catEmptyList

/-- True exactly on values of the ok constructor. -/
def exceptIsOk {ε α : Type} : Except ε α → Bool
  | .ok _ => true
  | .error _ => false

/-- The params argument of _broadcast_params: either a flat list of floats or
a list of lists of floats (the two shapes the source distinguishes through
isinstance on params[0]). -/
inductive Params where
  | flat (l : List ℝ)
  | nested (l : List (List ℝ))

/-- Length of the outer list of a params value (len(params) in the source). -/
def Params.outerLen : Params → ℕ
  | .flat l => l.length
  | .nested ls => ls.length

/-- Whether params[0] is itself a sequence. -/
def Params.isNested : Params → Bool
  | .flat _ => false
  | .nested _ => true

def sizesName : String := "sizes"

def aspectRatiosName : String := "aspect_ratios"

def xName : String := "x"

/-- Embedding of _broadcast_params (anchors.py lines 39-61): a flat list is
replicated over all feature maps, a singleton list of lists is replicated,
a longer list of lists must match num_features exactly. -/
def _broadcast_params : Params → ℕ → String → Except PyError (List (List ℝ))
  | .flat l, num_features, name =>
      if l.length = 0 then .error (.emptyParams name)
      else .ok (List.replicate num_features l)
  | .nested ls, num_features, name =>
      if ls.length = 0 then .error (.emptyParams name)
      else if ls.length = 1 then .ok (List.replicate num_features ls.headI)
      else if ls.length = num_features then .ok ls
      else .error (.lengthMismatch name ls.length num_features)

/-- The box built by one iteration of the inner loop of generate_cell_anchors
(anchors.py lines 162-168): area = size ** 2, w = sqrt(area / aspect_ratio),
h = aspect_ratio * w, box = (-w / 2, -h / 2, w / 2, h / 2). -/
def cellBox (size aspect_ratio : ℝ) : Box :=
  ⟨-(Real.sqrt (size ^ 2 / aspect_ratio)) / 2,
   -(aspect_ratio * Real.sqrt (size ^ 2 / aspect_ratio)) / 2,
   Real.sqrt (size ^ 2 / aspect_ratio) / 2,
   aspect_ratio * Real.sqrt (size ^ 2 / aspect_ratio) / 2⟩

/-- One iteration of the inner loop of generate_cell_anchors, with the Python
failure modes: area / aspect_ratio raises ZeroDivisionError when the aspect
ratio is zero, and math.sqrt raises ValueError when its argument is
negative. -/
def cellAnchor (size aspect_ratio : ℝ) : Except PyError Box :=
  if aspect_ratio = 0 then .error .zeroDivision
  else if size ^ 2 / aspect_ratio < 0 then .error .mathDomain
  else .ok (cellBox size aspect_ratio)

/-- The inner loop of generate_cell_anchors: one box per aspect ratio, in
list order, for a fixed size. -/
def anchorsForSize (size : ℝ) : List ℝ → Except PyError (List Box)
  | [] => .ok []
  | a :: rest =>
      match cellAnchor size a with
      | .error e => .error e
      | .ok b =>
          match anchorsForSize size rest with
          | .error e => .error e
          | .ok bs => .ok (b :: bs)

/-- Embedding of AnchorGenerator.generate_cell_anchors (anchors.py lines
146-169): nested loops, outer over sizes and inner over aspect ratios,
appending one box per pair. -/
def generate_cell_anchors : List ℝ → List ℝ → Except PyError (List Box)
  | [], _ => .ok []
  | s :: rest, aspect_ratios =>
      match anchorsForSize s aspect_ratios with
      | .error e => .error e
      | .ok row =>
          match generate_cell_anchors rest aspect_ratios with
          | .error e => .error e
          | .ok rows => .ok (row ++ rows)

/-- The value torch.arange(start, stop, step) produces when its arguments are
valid: ceil((stop - start) / step) elements start + k * step. -/
def arangeList (start step : ℝ) (n : ℕ) : List ℝ :=
  (List.range n).map fun (k : ℕ) => start + (k : ℝ) * step

/-- Embedding of torch.arange(start, stop, step) on floats: torch rejects a
zero step and an upper bound inconsistent with the step sign, and otherwise
produces ceil((stop - start) / step) equally spaced values. -/
def arange (start stop step : ℝ) : Except PyError (List ℝ) :=
  if step = 0 then .error .arangeZeroStep
  else if (0 < step ∧ start ≤ stop) ∨ (step < 0 ∧ stop ≤ start) then
    .ok (arangeList start step (⌈(stop - start) / step⌉.toNat))
  else .error .arangeInconsistentBounds

/-- Embedding of AnchorGenerator._compute_grid_offsets (anchors.py lines
116-130): arange over x (width) and y (height), meshgrid with matrix (ij)
indexing, then row-major flattening of both grids. -/
def _compute_grid_offsets (H W stride : ℕ) (offset : ℝ) :
    Except PyError (List ℝ × List ℝ) :=
  match arange (offset * stride) ((W : ℝ) * stride) stride with
  | .error e => .error e
  | .ok shifts_x =>
      match arange (offset * stride) ((H : ℝ) * stride) stride with
      | .error e => .error e
      | .ok shifts_y =>
          .ok (shifts_y.flatMap fun _ => shifts_x,
               shifts_y.flatMap fun y => List.replicate shifts_x.length y)

/-- Per-level body of AnchorGenerator.grid_anchors (anchors.py lines
179-186): stack the flattened grid offsets as rows (x, y, x, y) and add every
cell anchor to every shift, grid-position-major and cell-anchor-minor. -/
def tile_level (base_anchors : List Box) (H W stride : ℕ) (offset : ℝ) :
    Except PyError (List Box) :=
  match _compute_grid_offsets H W stride offset with
  | .error e => .error e
  | .ok so =>
      .ok ((so.1.zip so.2).flatMap fun s =>
        base_anchors.map fun b => ⟨s.1 + b.x0, s.2 + b.y0, s.1 + b.x1, s.2 + b.y1⟩)

/-- The state AnchorGenerator.__init__ stores: strides, broadcasted sizes and
aspect ratios, the frozen per-level cell anchors, and the offset. -/
structure AnchorGenerator where
  strides : List ℕ
  sizes : List (List ℝ)
  aspect_ratios : List (List ℝ)
  cell_anchors : List (List Box)
  offset : ℝ

/-- Embedding of AnchorGenerator._calculate_anchors (anchors.py lines
110-114): generate_cell_anchors for each zipped (sizes, aspect_ratios)
pair, in level order. -/
def calcAnchors : List (List ℝ × List ℝ) → Except PyError (List (List Box))
  | [] => .ok []
  | p :: rest =>
      match generate_cell_anchors p.1 p.2 with
      | .error e => .error e
      | .ok row =>
          match calcAnchors rest with
          | .error e => .error e
          | .ok rows => .ok (row :: rows)

/-- Embedding of AnchorGenerator.__init__ (anchors.py lines 79-104):
broadcast sizes and aspect ratios over len(strides), precompute the
per-level cell anchors, and store the offset without any validation. -/
def AnchorGenerator.init (sizes aspect_ratios : Params) (strides : List ℕ)
    (offset : ℝ) : Except PyError AnchorGenerator :=
  match _broadcast_params sizes strides.length sizesName with
  | .error e => .error e
  | .ok s =>
      match _broadcast_params aspect_ratios strides.length aspectRatiosName with
      | .error e => .error e
      | .ok a =>
          match calcAnchors (s.zip a) with
          | .error e => .error e
          | .ok cas => .ok ⟨strides, s, a, cas, offset⟩

/-- Embedding of the num_anchors property (anchors.py lines 136-144): the
number of boxes of each frozen per-level cell-anchor buffer. -/
def AnchorGenerator.num_anchors (g : AnchorGenerator) : List ℕ :=
  g.cell_anchors.map List.length

/-- Embedding of the num_cell_anchors property (anchors.py lines 132-134),
which just returns num_anchors. -/
def AnchorGenerator.num_cell_anchors (g : AnchorGenerator) : List ℕ :=
  g.num_anchors

/-- Python zip of three lists: truncation to the shortest. -/
def zip3 {α β γ : Type} (a : List α) (b : List β) (c : List γ) :
    List (α × β × γ) :=
  a.zip (b.zip c)

/-- The loop of AnchorGenerator.grid_anchors over the zipped levels, with
error propagation from each tile. -/
def gridAnchorsLevels (offset : ℝ) :
    List ((ℕ × ℕ) × ℕ × List Box) → Except PyError (List (List Box))
  | [] => .ok []
  | t :: rest =>
      match tile_level t.2.2 t.1.1 t.1.2 t.2.1 offset with
      | .error e => .error e
      | .ok l =>
          match gridAnchorsLevels offset rest with
          | .error e => .error e
          | .ok ls => .ok (l :: ls)

/-- Embedding of AnchorGenerator.grid_anchors (anchors.py lines 171-187):
zip(grid_sizes, strides, buffers) truncates to the shortest of the three
lists; no length validation is performed. -/
def AnchorGenerator.grid_anchors (g : AnchorGenerator)
    (grid_sizes : List (ℕ × ℕ)) : Except PyError (List (List Box)) :=
  gridAnchorsLevels g.offset (zip3 grid_sizes g.strides g.cell_anchors)

/-- Embedding of AnchorGenerator.forward (anchors.py lines 189-205): the
returned list is the singleton holding torch.cat of all per-level anchors;
torch.cat raises a RuntimeError when handed an empty list of tensors. -/
def AnchorGenerator.forward (g : AnchorGenerator)
    (grid_sizes : List (ℕ × ℕ)) : Except PyError (List (List Box)) :=
  match g.grid_anchors grid_sizes with
  | .error e => .error e
  | .ok [] => .error .catEmptyList
  | .ok (l :: ls) => .ok [(l :: ls).flatten]

/-- A one-level generator with size 2 and aspect ratio 1, as __init__ builds
it from flat parameter lists. -/
def sampleGen1 (offset : ℝ) : AnchorGenerator :=
  ⟨[1], [[2]], [[1]], [[cellBox 2 1]], offset⟩

/-- A two-level generator with size 2 and aspect ratio 1 broadcast over both
levels, as __init__ builds it from flat parameter lists. -/
def sampleGen2 (offset : ℝ) : AnchorGenerator :=
  ⟨[1, 1], [[2], [2]], [[1], [1]], [[cellBox 2 1], [cellBox 2 1]], offset⟩

lemma length_flatMap_const {α β : Type} {l : List α} {f : α → List β} {K : ℕ}
    (h : ∀ a ∈ l, (f a).length = K) : (l.flatMap f).length = l.length * K := by
  induction l with
  | nil => simp
  | cons a t ih =>
      simp only [List.flatMap_cons, List.length_append, List.length_cons]
      rw [h a (by simp), ih (fun x hx => h x (by simp [hx]))]
      ring

lemma getElem?_flatMap_const {α β : Type} {l : List α} {f : α → List β} {K : ℕ}
    (h : ∀ a ∈ l, (f a).length = K) {p k : ℕ} (hp : p < l.length) (hk : k < K) :
    (l.flatMap f)[p * K + k]? = (f (l.get ⟨p, hp⟩))[k]? := by
  induction l generalizing p with
  | nil => simp at hp
  | cons a t ih =>
      have hfa : (f a).length = K := h a (by simp)
      cases p with
      | zero =>
          simp only [List.flatMap_cons, Nat.zero_mul, Nat.zero_add]
          rw [List.getElem?_append, if_pos (by rw [hfa]; exact hk)]
          simp
      | succ p =>
          have hKe : (p + 1) * K + k = K + (p * K + k) := by ring
          simp only [List.flatMap_cons]
          rw [List.getElem?_append_right (by rw [hfa, hKe]; exact Nat.le_add_right _ _)]
          rw [hfa, hKe, Nat.add_sub_cancel_left]
          have hp2 : p < t.length := by simpa using hp
          have := ih (fun x hx => h x (by simp [hx])) hp2
          simpa using this

lemma getElem?_zip_of_lt {α β : Type} {l₁ : List α} {l₂ : List β} {i : ℕ}
    (h₁ : i < l₁.length) (h₂ : i < l₂.length) :
    (l₁.zip l₂)[i]? = some (l₁.get ⟨i, h₁⟩, l₂.get ⟨i, h₂⟩) := by
  induction l₁ generalizing l₂ i with
  | nil => simp at h₁
  | cons a t ih =>
      cases l₂ with
      | nil => simp at h₂
      | cons b u =>
          cases i with
          | zero => simp [List.zip_cons_cons]
          | succ i =>
              simpa [List.zip_cons_cons] using
                ih (by simpa using h₁) (by simpa using h₂)

lemma getElem?_eq_get {α : Type} {l : List α} {n : ℕ} (h : n < l.length) :
    l[n]? = some (l.get ⟨n, h⟩) := by
  rw [List.getElem?_eq_getElem h]
  rfl

lemma arangeList_length (start step : ℝ) (n : ℕ) :
    (arangeList start step n).length = n := by
  unfold arangeList
  rw [List.length_map, List.length_range]

lemma arangeList_getElem? (start step : ℝ) {n k : ℕ} (hk : k < n) :
    (arangeList start step n)[k]? = some (start + (k : ℝ) * step) := by
  unfold arangeList
  rw [List.getElem?_map, List.getElem?_range hk]
  rfl

lemma arangeList_get (start step : ℝ) {n k : ℕ}
    (hk : k < (arangeList start step n).length) :
    (arangeList start step n).get ⟨k, hk⟩ = start + (k : ℝ) * step := by
  unfold arangeList
  simp only [List.get_eq_getElem, List.getElem_map, List.getElem_range]

lemma ceil_nat_sub_eq {N : ℕ} {offset : ℝ} (h0 : 0 ≤ offset) (h1 : offset < 1) :
    ⌈(N : ℝ) - offset⌉ = (N : ℤ) := by
  rw [Int.ceil_eq_iff]
  constructor
  · push_cast
    linarith
  · push_cast
    linarith

lemma arange_grid (N stride : ℕ) (offset : ℝ) (hst : 0 < stride) (h0 : 0 ≤ offset)
    (h1 : offset < 1) (hN : offset ≤ (N : ℝ)) :
    arange (offset * stride) ((N : ℝ) * stride) stride =
      .ok (arangeList (offset * stride) stride N) := by
  have hstR : (0 : ℝ) < (stride : ℝ) := by exact_mod_cast hst
  have hle : offset * stride ≤ (N : ℝ) * stride :=
    mul_le_mul_of_nonneg_right hN hstR.le
  have hq : ((N : ℝ) * stride - offset * stride) / stride = (N : ℝ) - offset := by
    rw [div_eq_iff (ne_of_gt hstR)]
    ring
  unfold arange
  rw [if_neg (ne_of_gt hstR), if_pos (Or.inl ⟨hstR, hle⟩), hq,
    ceil_nat_sub_eq h0 h1, Int.toNat_natCast]

lemma compute_grid_offsets_ok (H W stride : ℕ) (offset : ℝ) (hst : 0 < stride)
    (h0 : 0 ≤ offset) (h1 : offset < 1) (hH : offset ≤ (H : ℝ))
    (hW : offset ≤ (W : ℝ)) :
    _compute_grid_offsets H W stride offset =
      .ok ((arangeList (offset * stride) stride H).flatMap fun _ =>
             arangeList (offset * stride) stride W,
           (arangeList (offset * stride) stride H).flatMap fun y =>
             List.replicate (arangeList (offset * stride) stride W).length y) := by
  unfold _compute_grid_offsets
  rw [arange_grid W stride offset hst h0 h1 hW,
    arange_grid H stride offset hst h0 h1 hH]

lemma cellAnchor_pos (s : ℝ) {a : ℝ} (ha : 0 < a) :
    cellAnchor s a = .ok (cellBox s a) := by
  unfold cellAnchor
  rw [if_neg (ne_of_gt ha), if_neg (not_lt.mpr (div_nonneg (sq_nonneg s) ha.le))]

lemma anchorsForSize_pos (s : ℝ) {ratios : List ℝ} (h : ∀ a ∈ ratios, 0 < a) :
    anchorsForSize s ratios = .ok (ratios.map fun a => cellBox s a) := by
  induction ratios with
  | nil => simp [anchorsForSize]
  | cons a t ih =>
      simp only [anchorsForSize]
      rw [cellAnchor_pos s (h a (by simp)), ih (fun x hx => h x (by simp [hx]))]
      simp

lemma generate_pos {ratios : List ℝ} (sizes : List ℝ) (h : ∀ a ∈ ratios, 0 < a) :
    generate_cell_anchors sizes ratios =
      .ok (sizes.flatMap fun s => ratios.map fun a => cellBox s a) := by
  induction sizes with
  | nil => simp [generate_cell_anchors]
  | cons s t ih =>
      simp only [generate_cell_anchors]
      rw [anchorsForSize_pos s h, ih]
      simp [List.flatMap_cons]

lemma anchorsForSize_ok_length {s : ℝ} {ratios : List ℝ} {row : List Box}
    (h : anchorsForSize s ratios = .ok row) : row.length = ratios.length := by
  induction ratios generalizing row with
  | nil =>
      simp only [anchorsForSize, Except.ok.injEq] at h
      simp [← h]
  | cons a t ih =>
      simp only [anchorsForSize] at h
      cases hc : cellAnchor s a with
      | error e => rw [hc] at h; simp at h
      | ok b =>
          rw [hc] at h
          cases hr : anchorsForSize s t with
          | error e => rw [hr] at h; simp at h
          | ok bs =>
              rw [hr] at h
              simp only [Except.ok.injEq] at h
              subst h
              simp [ih hr]

lemma generate_ok_length {sizes ratios : List ℝ} {bs : List Box}
    (h : generate_cell_anchors sizes ratios = .ok bs) :
    bs.length = sizes.length * ratios.length := by
  induction sizes generalizing bs with
  | nil =>
      simp only [generate_cell_anchors, Except.ok.injEq] at h
      simp [← h]
  | cons s t ih =>
      simp only [generate_cell_anchors] at h
      cases hr : anchorsForSize s ratios with
      | error e => rw [hr] at h; simp at h
      | ok row =>
          rw [hr] at h
          cases hg : generate_cell_anchors t ratios with
          | error e => rw [hg] at h; simp at h
          | ok rows =>
              rw [hg] at h
              simp only [Except.ok.injEq] at h
              subst h
              simp only [List.length_append, List.length_cons,
                anchorsForSize_ok_length hr, ih hg]
              ring

lemma broadcast_ok_length {p : Params} {n : ℕ} {name : String}
    {out : List (List ℝ)} (h : _broadcast_params p n name = .ok out) :
    out.length = n := by
  cases p with
  | flat l =>
      simp only [_broadcast_params] at h
      by_cases h0 : l.length = 0
      · rw [if_pos h0] at h
        exact absurd h (by simp)
      · rw [if_neg h0] at h
        simp only [Except.ok.injEq] at h
        simp [← h]
  | nested ls =>
      simp only [_broadcast_params] at h
      by_cases h0 : ls.length = 0
      · rw [if_pos h0] at h
        exact absurd h (by simp)
      · rw [if_neg h0] at h
        by_cases h1 : ls.length = 1
        · rw [if_pos h1] at h
          simp only [Except.ok.injEq] at h
          simp [← h]
        · rw [if_neg h1] at h
          by_cases h2 : ls.length = n
          · rw [if_pos h2] at h
            simp only [Except.ok.injEq] at h
            rw [← h]
            exact h2
          · rw [if_neg h2] at h
            exact absurd h (by simp)

lemma calcAnchors_lengths {l : List (List ℝ × List ℝ)} {out : List (List Box)}
    (h : calcAnchors l = .ok out) :
    out.map List.length = l.map fun p => p.1.length * p.2.length := by
  induction l generalizing out with
  | nil =>
      simp only [calcAnchors, Except.ok.injEq] at h
      simp [← h]
  | cons p t ih =>
      simp only [calcAnchors] at h
      cases hg : generate_cell_anchors p.1 p.2 with
      | error e => rw [hg] at h; simp at h
      | ok row =>
          rw [hg] at h
          cases hc : calcAnchors t with
          | error e => rw [hc] at h; simp at h
          | ok rows =>
              rw [hc] at h
              simp only [Except.ok.injEq] at h
              subst h
              simp [generate_ok_length hg, ih hc]

lemma calcAnchors_length {l : List (List ℝ × List ℝ)} {out : List (List Box)}
    (h : calcAnchors l = .ok out) : out.length = l.length := by
  have h2 := congrArg List.length (calcAnchors_lengths h)
  simpa using h2

lemma cellAnchor_err {s a : ℝ} (hs : s ≠ 0) (ha : a ≤ 0) :
    ∃ e, cellAnchor s a = .error e := by
  rcases eq_or_lt_of_le ha with h | h
  · exact ⟨.zeroDivision, by unfold cellAnchor; rw [if_pos h]⟩
  · have h2 : (0 : ℝ) < s ^ 2 :=
      lt_of_le_of_ne (sq_nonneg s) (Ne.symm (pow_ne_zero 2 hs))
    have hneg : s ^ 2 / a < 0 := div_neg_of_pos_of_neg h2 h
    refine ⟨.mathDomain, ?_⟩
    unfold cellAnchor
    rw [if_neg (ne_of_lt h), if_pos hneg]

lemma anchorsForSize_err {s : ℝ} (hs : s ≠ 0) {ratios : List ℝ} {r : ℝ}
    (hr : r ∈ ratios) (hr0 : r ≤ 0) :
    ∃ e, anchorsForSize s ratios = .error e := by
  induction ratios with
  | nil => simp at hr
  | cons a t ih =>
      by_cases hA : a ≤ 0
      · obtain ⟨e, he⟩ := cellAnchor_err hs hA
        exact ⟨e, by simp only [anchorsForSize]; rw [he]⟩
      · push_neg at hA
        have hrt : r ∈ t := by
          rcases List.mem_cons.mp hr with h | h
          · exfalso
            rw [h] at hr0
            linarith
          · exact h
        obtain ⟨e, he⟩ := ih hrt
        refine ⟨e, ?_⟩
        simp only [anchorsForSize]
        rw [cellAnchor_pos s hA, he]

lemma generate_err {sizes ratios : List ℝ} (hne : sizes ≠ [])
    (hz : ∀ x ∈ sizes, x ≠ 0) {r : ℝ} (hr : r ∈ ratios) (hr0 : r ≤ 0) :
    ∃ e, generate_cell_anchors sizes ratios = .error e := by
  cases sizes with
  | nil => exact absurd rfl hne
  | cons s t =>
      obtain ⟨e, he⟩ := anchorsForSize_err (hz s (by simp)) hr hr0
      exact ⟨e, by simp only [generate_cell_anchors]; rw [he]⟩

lemma flatMapConstList_length {α : Type} (ys : List α) (xs : List ℝ) :
    (ys.flatMap fun _ => xs).length = ys.length * xs.length :=
  length_flatMap_const fun a ha => rfl

lemma flatMapReplicate_length {α : Type} (ys : List α) (n : ℕ) :
    (ys.flatMap fun y => List.replicate n y).length = ys.length * n :=
  length_flatMap_const fun a ha => List.length_replicate n a

lemma tile_level_ok (base : List Box) (H W stride : ℕ) (offset : ℝ)
    (hst : 0 < stride) (h0 : 0 ≤ offset) (h1 : offset < 1)
    (hH : offset ≤ (H : ℝ)) (hW : offset ≤ (W : ℝ)) :
    tile_level base H W stride offset =
      .ok ((((arangeList (offset * stride) stride H).flatMap fun _ =>
              arangeList (offset * stride) stride W).zip
            ((arangeList (offset * stride) stride H).flatMap fun y =>
              List.replicate (arangeList (offset * stride) stride W).length y)).flatMap
           fun sh => base.map fun b =>
             ⟨sh.1 + b.x0, sh.2 + b.y0, sh.1 + b.x1, sh.2 + b.y1⟩) := by
  unfold tile_level
  rw [compute_grid_offsets_ok H W stride offset hst h0 h1 hH hW]

lemma tile_level_length (base : List Box) (H W stride : ℕ) (offset : ℝ)
    (hst : 0 < stride) (h0 : 0 ≤ offset) (h1 : offset < 1)
    (hH : offset ≤ (H : ℝ)) (hW : offset ≤ (W : ℝ)) :
    ∃ T, tile_level base H W stride offset = .ok T ∧
      T.length = H * W * base.length := by
  refine ⟨_, tile_level_ok base H W stride offset hst h0 h1 hH hW, ?_⟩
  rw [length_flatMap_const fun a ha => List.length_map base _]
  rw [List.length_zip, flatMapConstList_length, flatMapReplicate_length,
    arangeList_length, arangeList_length, min_self]

lemma gridLevels_ok (offset : ℝ) (h0 : 0 ≤ offset) (h1 : offset < 1) :
    ∀ L : List ((ℕ × ℕ) × ℕ × List Box),
      (∀ t ∈ L, 0 < t.2.1 ∧ 0 < t.1.1 ∧ 0 < t.1.2) →
      ∃ levels, gridAnchorsLevels offset L = .ok levels ∧
        levels.map List.length = L.map fun t => t.1.1 * t.1.2 * t.2.2.length := by
  intro L
  induction L with
  | nil => exact fun _ => ⟨[], rfl, by simp⟩
  | cons t rest ih =>
      intro hc
      obtain ⟨hstp, hHp, hWp⟩ := hc t (by simp)
      have hH : offset ≤ (t.1.1 : ℝ) :=
        le_trans h1.le (by exact_mod_cast hHp)
      have hW : offset ≤ (t.1.2 : ℝ) :=
        le_trans h1.le (by exact_mod_cast hWp)
      obtain ⟨T, hT, hTl⟩ :=
        tile_level_length t.2.2 t.1.1 t.1.2 t.2.1 offset hstp h0 h1 hH hW
      obtain ⟨levels, hl, hll⟩ := ih fun x hx => hc x (List.mem_cons_of_mem _ hx)
      refine ⟨T :: levels, ?_, ?_⟩
      · simp only [gridAnchorsLevels]
        rw [hT, hl]
      · simp [hll, hTl]

lemma forward_ok (g : AnchorGenerator) (shapes : List (ℕ × ℕ))
    (h0 : 0 ≤ g.offset) (h1 : g.offset < 1)
    (hc : ∀ t ∈ zip3 shapes g.strides g.cell_anchors,
      0 < t.2.1 ∧ 0 < t.1.1 ∧ 0 < t.1.2) :
    ∃ levels, g.grid_anchors shapes = .ok levels ∧
      levels.map List.length =
        (zip3 shapes g.strides g.cell_anchors).map
          (fun t => t.1.1 * t.1.2 * t.2.2.length) ∧
      levels.flatten.length =
        ((zip3 shapes g.strides g.cell_anchors).map
          fun t => t.1.1 * t.1.2 * t.2.2.length).sum ∧
      (levels = [] → g.forward shapes = .error PyError.catEmptyList) ∧
      (levels ≠ [] → g.forward shapes = .ok [levels.flatten]) := by
  obtain ⟨levels, hga, hmap⟩ :=
    gridLevels_ok g.offset h0 h1 (zip3 shapes g.strides g.cell_anchors) hc
  have hga2 : g.grid_anchors shapes = .ok levels := hga
  refine ⟨levels, hga2, hmap, ?_, ?_, ?_⟩
  · rw [List.length_flatten, hmap]
  · intro h
    subst h
    unfold AnchorGenerator.forward
    rw [hga2]
  · intro h
    cases levels with
    | nil => exact absurd rfl h
    | cons l ls =>
        unfold AnchorGenerator.forward
        rw [hga2]

lemma cellBox_zero : cellBox 0 1 = ⟨0, 0, 0, 0⟩ := by
  unfold cellBox
  rw [show (0 : ℝ) ^ 2 / 1 = 0 by norm_num, Real.sqrt_zero]
  simp

lemma init_sample1 (offset : ℝ) :
    AnchorGenerator.init (Params.flat [2]) (Params.flat [1]) [1] offset =
      .ok (sampleGen1 offset) := by
  have h21 : cellAnchor 2 1 = .ok (cellBox 2 1) := cellAnchor_pos 2 one_pos
  simp [AnchorGenerator.init, _broadcast_params, calcAnchors,
    generate_cell_anchors, anchorsForSize, h21, sampleGen1]

lemma init_sample2 (offset : ℝ) :
    AnchorGenerator.init (Params.flat [2]) (Params.flat [1]) [1, 1] offset =
      .ok (sampleGen2 offset) := by
  have h21 : cellAnchor 2 1 = .ok (cellBox 2 1) := cellAnchor_pos 2 one_pos
  simp [AnchorGenerator.init, _broadcast_params, calcAnchors,
    generate_cell_anchors, anchorsForSize, h21, sampleGen2]

lemma init_sample_zero :
    AnchorGenerator.init (Params.flat [0]) (Params.flat [1]) [1] 0 =
      .ok ⟨[1], [[0]], [[1]], [[Box.mk 0 0 0 0]], 0⟩ := by
  have h01 : cellAnchor 0 1 = .ok (Box.mk 0 0 0 0) := by
    rw [cellAnchor_pos 0 one_pos, cellBox_zero]
  simp [AnchorGenerator.init, _broadcast_params, calcAnchors,
    generate_cell_anchors, anchorsForSize, h01]

lemma init_ok_elim {sizes aspect_ratios : Params} {strides : List ℕ}
    {offset : ℝ} {g : AnchorGenerator}
    (h : AnchorGenerator.init sizes aspect_ratios strides offset = .ok g) :
    g.strides = strides ∧ g.offset = offset ∧
      _broadcast_params sizes strides.length sizesName = .ok g.sizes ∧
      _broadcast_params aspect_ratios strides.length aspectRatiosName =
        .ok g.aspect_ratios ∧
      calcAnchors (g.sizes.zip g.aspect_ratios) = .ok g.cell_anchors := by
  unfold AnchorGenerator.init at h
  cases hb1 : _broadcast_params sizes strides.length sizesName with
  | error e =>
      simp only [hb1] at h
      exact absurd h (by simp)
  | ok s =>
      simp only [hb1] at h
      cases hb2 : _broadcast_params aspect_ratios strides.length aspectRatiosName with
      | error e =>
          simp only [hb2] at h
          exact absurd h (by simp)
      | ok a =>
          simp only [hb2] at h
          cases hc : calcAnchors (s.zip a) with
          | error e =>
              simp only [hc] at h
              exact absurd h (by simp)
          | ok cas =>
              simp only [hc, Except.ok.injEq] at h
              subst h
              exact ⟨rfl, rfl, rfl, rfl, hc⟩

lemma sample2_cond (shapes : List (ℕ × ℕ))
    (hs : ∀ p ∈ shapes, 0 < p.1 ∧ 0 < p.2) :
    ∀ t ∈ zip3 shapes (sampleGen2 0).strides (sampleGen2 0).cell_anchors,
      0 < t.2.1 ∧ 0 < t.1.1 ∧ 0 < t.1.2 := by
  intro t ht
  unfold zip3 at ht
  obtain ⟨ht1, ht2⟩ := List.of_mem_zip ht
  obtain ⟨ht21, _⟩ := List.of_mem_zip ht2
  have hp := hs t.1 ht1
  have hst : t.2.1 = 1 := by simpa [sampleGen2] using ht21
  exact ⟨by simp [hst], hp.1, hp.2⟩

/-- C1: for non-empty lists of positive sizes and positive aspect ratios,
generate_cell_anchors returns exactly one box per (size, aspect_ratio) pair in
size-major, aspect-ratio-minor order, where the box for (s, a) is
(-w / 2, -h / 2, w / 2, h / 2) with w = sqrt(s ^ 2 / a) and h = a * w; every
box is origin-centered with area s ^ 2 and height/width ratio a. -/
theorem claim_C1 (sizes aspect_ratios : List ℝ) (hne1 : sizes ≠ [])
    (hne2 : aspect_ratios ≠ []) (hs : ∀ s ∈ sizes, 0 < s)
    (hr : ∀ a ∈ aspect_ratios, 0 < a) :
    generate_cell_anchors sizes aspect_ratios =
      .ok (sizes.flatMap fun s => aspect_ratios.map fun a => cellBox s a) ∧
    (sizes.flatMap fun s => aspect_ratios.map fun a => cellBox s a).length =
      sizes.length * aspect_ratios.length ∧
    ∀ s ∈ sizes, ∀ a ∈ aspect_ratios,
      cellBox s a =
        ⟨-(Real.sqrt (s ^ 2 / a)) / 2, -(a * Real.sqrt (s ^ 2 / a)) / 2,
         Real.sqrt (s ^ 2 / a) / 2, a * Real.sqrt (s ^ 2 / a) / 2⟩ ∧
      (cellBox s a).x0 = -(cellBox s a).x1 ∧
      (cellBox s a).y0 = -(cellBox s a).y1 ∧
      ((cellBox s a).x1 - (cellBox s a).x0) *
        ((cellBox s a).y1 - (cellBox s a).y0) = s ^ 2 ∧
      ((cellBox s a).y1 - (cellBox s a).y0) /
        ((cellBox s a).x1 - (cellBox s a).x0) = a := by
  refine ⟨generate_pos sizes hr, ?_, ?_⟩
  · rw [length_flatMap_const fun x hx => List.length_map aspect_ratios _]
  · intro s hsm a ham
    have ha : 0 < a := hr a ham
    have hsp : 0 < s := hs s hsm
    have hq : 0 ≤ s ^ 2 / a := div_nonneg (sq_nonneg s) ha.le
    have hw : Real.sqrt (s ^ 2 / a) * Real.sqrt (s ^ 2 / a) = s ^ 2 / a :=
      Real.mul_self_sqrt hq
    have hwpos : 0 < Real.sqrt (s ^ 2 / a) := Real.sqrt_pos.mpr (by positivity)
    have e1 : (cellBox s a).x1 - (cellBox s a).x0 = Real.sqrt (s ^ 2 / a) := by
      simp only [cellBox]
      ring
    have e2 : (cellBox s a).y1 - (cellBox s a).y0 = a * Real.sqrt (s ^ 2 / a) := by
      simp only [cellBox]
      ring
    refine ⟨rfl, ?_, ?_, ?_, ?_⟩
    · simp only [cellBox]
      ring
    · simp only [cellBox]
      ring
    · rw [e1, e2]
      have e3 : Real.sqrt (s ^ 2 / a) * (a * Real.sqrt (s ^ 2 / a)) =
          a * (Real.sqrt (s ^ 2 / a) * Real.sqrt (s ^ 2 / a)) := by ring
      rw [e3, hw]
      field_simp
    · rw [e1, e2]
      exact mul_div_cancel_right₀ a (ne_of_gt hwpos)

/-- Witness for C1 at sizes [2] and aspect ratios [1]. -/
theorem claim_C1_witness :
    generate_cell_anchors [2] [1] =
      .ok ([2].flatMap fun s => [1].map fun a => cellBox s a) ∧
    ((cellBox 2 1).x1 - (cellBox 2 1).x0) *
      ((cellBox 2 1).y1 - (cellBox 2 1).y0) = (2 : ℝ) ^ 2 := by
  obtain ⟨h1, h2, h3⟩ :=
    claim_C1 [2] [1] (by simp) (by simp) (by norm_num) (by norm_num)
  have h4 := h3 2 (by simp) 1 (by simp)
  exact ⟨h1, h4.2.2.2.1⟩

/-- C5: broadcast of a flat list replicates it num_levels times, broadcast of
a singleton nested list replicates the nested list num_levels times, and
broadcast of a nested list whose length equals num_levels returns it
unchanged. -/
theorem claim_C5 (n : ℕ) (hn : 1 ≤ n) (name : String) (l p : List ℝ)
    (ls : List (List ℝ)) (hl : l ≠ []) (hlen : ls.length = n) :
    _broadcast_params (.flat l) n name = .ok (List.replicate n l) ∧
    _broadcast_params (.nested [p]) n name = .ok (List.replicate n p) ∧
    _broadcast_params (.nested ls) n name = .ok ls := by
  refine ⟨?_, ?_, ?_⟩
  · simp only [_broadcast_params]
    rw [if_neg fun hc => hl (List.length_eq_zero.mp hc)]
  · simp [_broadcast_params]
  · simp only [_broadcast_params]
    rw [if_neg (by omega)]
    by_cases h1 : ls.length = 1
    · rw [if_pos h1]
      obtain ⟨x, rfl⟩ := List.length_eq_one.mp h1
      have hn1 : n = 1 := by simpa using hlen.symm
      subst hn1
      simp
    · rw [if_neg h1, if_pos hlen]

/-- Witness for C5 at n = 3 with the broadcast-law examples of the spec. -/
theorem claim_C5_witness :
    _broadcast_params (.flat [5]) 3 xName = .ok [[5], [5], [5]] ∧
    _broadcast_params (.nested [[5, 6]]) 3 xName =
      .ok [[5, 6], [5, 6], [5, 6]] ∧
    _broadcast_params (.nested [[1], [2], [3]]) 3 xName =
      .ok [[1], [2], [3]] := by
  obtain ⟨h1, h2, h3⟩ :=
    claim_C5 3 (by norm_num) xName [5] [5, 6] [[1], [2], [3]] (by simp) (by simp)
  refine ⟨?_, ?_, h3⟩
  · simpa using h1
  · simpa using h2

/-- C9: broadcast fails exactly when the input is empty or is a nested list of
length greater than one whose length differs from num_levels; in the mismatch
case the error carries the parameter name and both lengths; in every other
case broadcast succeeds.  (That a non-sequence input fails is enforced at the
type level of this embedding.) -/
theorem claim_C9 (params : Params) (n : ℕ) (name : String) :
    (exceptIsOk (_broadcast_params params n name) = false ↔
      params.outerLen = 0 ∨
        (params.isNested = true ∧ 1 < params.outerLen ∧ params.outerLen ≠ n)) ∧
    (params.isNested = true → 1 < params.outerLen → params.outerLen ≠ n →
      _broadcast_params params n name =
        .error (.lengthMismatch name params.outerLen n)) := by
  cases params with
  | flat l =>
      constructor
      · simp only [_broadcast_params, Params.outerLen, Params.isNested]
        by_cases h0 : l.length = 0
        · rw [if_pos h0]
          simp [exceptIsOk, h0]
        · rw [if_neg h0]
          simp [exceptIsOk, h0]
      · intro hcontra
        simp [Params.isNested] at hcontra
  | nested ls =>
      constructor
      · simp only [_broadcast_params, Params.outerLen, Params.isNested]
        by_cases h0 : ls.length = 0
        · rw [if_pos h0]
          simp [exceptIsOk, h0]
        · rw [if_neg h0]
          by_cases h1 : ls.length = 1
          · rw [if_pos h1]
            simp only [exceptIsOk]
            constructor
            · intro hcontra
              exact absurd hcontra (by simp)
            · intro hcontra
              rcases hcontra with hc | ⟨hc1, hc2, hc3⟩
              · omega
              · omega
          · rw [if_neg h1]
            by_cases h2 : ls.length = n
            · rw [if_pos h2]
              simp only [exceptIsOk]
              constructor
              · intro hcontra
                exact absurd hcontra (by simp)
              · intro hcontra
                rcases hcontra with hc | ⟨hc1, hc2, hc3⟩
                · omega
                · omega
            · rw [if_neg h2]
              have hgt : 1 < ls.length := by omega
              simp [exceptIsOk, hgt, h2]
      · intro hnest hlt hne
        simp only [Params.outerLen] at hlt hne ⊢
        simp only [_broadcast_params]
        rw [if_neg (by omega), if_neg (by omega), if_neg hne]

/-- Witness for C9: broadcast of two nested lists against three levels fails
with the mismatch error carrying the name and both lengths. -/
theorem claim_C9_witness :
    _broadcast_params (.nested [[1], [2]]) 3 xName =
      .error (.lengthMismatch xName 2 3) ∧
    exceptIsOk (_broadcast_params (.nested [[1], [2]]) 3 xName) = false := by
  have h := claim_C9 (.nested [[1], [2]]) 3 xName
  have h2 := h.2 rfl (by simp [Params.outerLen]) (by simp [Params.outerLen])
  constructor
  · simpa [Params.outerLen] using h2
  · rw [show _broadcast_params (.nested [[1], [2]]) 3 xName =
      .error (.lengthMismatch xName 2 3) from by
        simpa [Params.outerLen] using h2]
    rfl

/-- C2 (amended): for a positive stride and offset in [0, 1), provided
additionally that offset ≤ H and offset ≤ W (in particular whenever H and W
are positive, or whenever offset = 0), _compute_grid_offsets returns two flat
lists of length H * W in row-major raster order, with x = (offset + j) *
stride and y = (offset + i) * stride at flat index i * W + j.  Without the
extra proviso the claim fails: see the counterexample. -/
theorem claim_C2_amended (H W stride : ℕ) (offset : ℝ) (hst : 0 < stride)
    (h0 : 0 ≤ offset) (h1 : offset < 1) (hH : offset ≤ (H : ℝ))
    (hW : offset ≤ (W : ℝ)) :
    ∃ xs ys, _compute_grid_offsets H W stride offset = .ok (xs, ys) ∧
      xs.length = H * W ∧ ys.length = H * W ∧
      ∀ i j, i < H → j < W →
        xs[i * W + j]? = some ((offset + (j : ℝ)) * stride) ∧
        ys[i * W + j]? = some ((offset + (i : ℝ)) * stride) := by
  refine ⟨_, _, compute_grid_offsets_ok H W stride offset hst h0 h1 hH hW,
    ?_, ?_, ?_⟩
  · rw [flatMapConstList_length, arangeList_length, arangeList_length]
  · rw [flatMapReplicate_length, arangeList_length, arangeList_length]
  · intro i j hi hj
    have hiL : i < (arangeList (offset * stride) stride H).length := by
      rw [arangeList_length]
      exact hi
    constructor
    · rw [getElem?_flatMap_const
        (fun a ha => arangeList_length (offset * stride) stride W) hiL hj]
      rw [arangeList_getElem? (offset * stride) stride hj]
      congr 1
      ring
    · rw [getElem?_flatMap_const
        (fun a ha => by rw [List.length_replicate, arangeList_length]) hiL hj]
      rw [List.getElem?_replicate, if_pos (by rw [arangeList_length]; exact hj)]
      rw [arangeList_get]
      congr 1
      ring

/-- Counterexample for C2 as stated: with H = 0, W = 3, stride = 8 and offset
1/2 (all within the claimed domain H, W >= 0, stride positive, offset in
[0, 1)), the code raises torch.arange's inconsistent-bounds error instead of
returning two empty sequences of length H * W = 0. -/
theorem claim_C2_counterexample :
    _compute_grid_offsets 0 3 8 (1 / 2) =
      .error PyError.arangeInconsistentBounds := by
  unfold _compute_grid_offsets
  rw [arange_grid 3 8 (1 / 2) (by norm_num) (by norm_num) (by norm_num)
    (by norm_num)]
  unfold arange
  rw [if_neg (by norm_num), if_neg (by push_cast; norm_num)]

/-- Witness for the amended C2 at H = 2, W = 3, stride = 8, offset = 0: six
grid cells in row-major order, with the pair at flat index 1 * 3 + 2 = 5
equal to (16, 8). -/
theorem claim_C2_witness :
    (_compute_grid_offsets 2 3 8 0).map (fun so => (so.1.length, so.2.length)) =
      .ok (6, 6) ∧
    (_compute_grid_offsets 2 3 8 0).map (fun so => so.1[5]?) = .ok (some 16) ∧
    (_compute_grid_offsets 2 3 8 0).map (fun so => so.2[5]?) = .ok (some 8) := by
  obtain ⟨xs, ys, heq, hlx, hly, hval⟩ :=
    claim_C2_amended 2 3 8 0 (by norm_num) le_rfl (by norm_num) (by norm_num)
      (by norm_num)
  have h12 := hval 1 2 (by norm_num) (by norm_num)
  refine ⟨?_, ?_, ?_⟩
  · rw [heq]
    simp [Except.map, hlx, hly]
  · rw [heq]
    have hx := h12.1
    norm_num at hx
    simp [Except.map, hx]
  · rw [heq]
    have hy := h12.2
    norm_num at hy
    simp [Except.map, hy]

/-- C3: for a positive stride, offset in [0, 1), and a level with positive
feature dimensions, the per-level tiling emits exactly H * W * |base| boxes
in grid-position-major, cell-anchor-minor order, the box at flat index
p * |base| + k being the k-th cell anchor translated by the p-th grid offset
(both corners shifted identically). -/
theorem claim_C3 (base : List Box) (H W stride : ℕ) (offset : ℝ)
    (hst : 0 < stride) (h0 : 0 ≤ offset) (h1 : offset < 1) (hH : 0 < H)
    (hW : 0 < W) :
    ∃ T xs ys, tile_level base H W stride offset = .ok T ∧
      _compute_grid_offsets H W stride offset = .ok (xs, ys) ∧
      T.length = H * W * base.length ∧
      ∀ p k, p < H * W → k < base.length →
        ∃ sx sy b, xs[p]? = some sx ∧ ys[p]? = some sy ∧ base[k]? = some b ∧
          T[p * base.length + k]? =
            some ⟨sx + b.x0, sy + b.y0, sx + b.x1, sy + b.y1⟩ := by
  have hHr : offset ≤ (H : ℝ) := le_trans h1.le (by exact_mod_cast hH)
  have hWr : offset ≤ (W : ℝ) := le_trans h1.le (by exact_mod_cast hW)
  have hT := tile_level_ok base H W stride offset hst h0 h1 hHr hWr
  have hG := compute_grid_offsets_ok H W stride offset hst h0 h1 hHr hWr
  set xsL := (arangeList (offset * stride) stride H).flatMap fun _ =>
    arangeList (offset * stride) stride W with hxs
  set ysL := (arangeList (offset * stride) stride H).flatMap fun y =>
    List.replicate (arangeList (offset * stride) stride W).length y with hys
  have hxl : xsL.length = H * W := by
    rw [hxs, flatMapConstList_length, arangeList_length, arangeList_length]
  have hyl : ysL.length = H * W := by
    rw [hys, flatMapReplicate_length, arangeList_length, arangeList_length]
  refine ⟨_, xsL, ysL, hT, hG, ?_, ?_⟩
  · rw [length_flatMap_const fun a ha => List.length_map base _]
    rw [List.length_zip, hxl, hyl, min_self]
  · intro p k hp hk
    have hpx : p < xsL.length := by rw [hxl]; exact hp
    have hpy : p < ysL.length := by rw [hyl]; exact hp
    refine ⟨xsL.get ⟨p, hpx⟩, ysL.get ⟨p, hpy⟩, base.get ⟨k, hk⟩,
      List.getElem?_eq_getElem hpx, List.getElem?_eq_getElem hpy,
      List.getElem?_eq_getElem hk, ?_⟩
    have hzl : p < (xsL.zip ysL).length := by
      rw [List.length_zip, hxl, hyl, min_self]
      exact hp
    rw [getElem?_flatMap_const (fun a ha => List.length_map base _) hzl hk]
    rw [List.getElem?_map, List.getElem?_eq_getElem hk]
    have hzg : (xsL.zip ysL).get ⟨p, hzl⟩ =
        (xsL.get ⟨p, hpx⟩, ysL.get ⟨p, hpy⟩) :=
      Option.some.inj ((getElem?_eq_get hzl).symm.trans
        (getElem?_zip_of_lt hpx hpy))
    rw [hzg]
    rfl

/-- Witness for C3 on one cell anchor over a 1-by-1 grid. -/
theorem claim_C3_witness :
    (tile_level [Box.mk 1 2 3 4] 1 1 1 0).map List.length = .ok 1 := by
  obtain ⟨T, xs, ys, hT, hG, hTl, hval⟩ :=
    claim_C3 [Box.mk 1 2 3 4] 1 1 1 0 (by norm_num) le_rfl (by norm_num)
      (by norm_num) (by norm_num)
  rw [hT]
  simp [Except.map, hTl]

/-- C10: after a successful construction, num_anchors and num_cell_anchors
agree, have one entry per level, and the entry for level i is
|sizes_i| * |aspect_ratios_i| of the broadcasted parameters, read off the
frozen cell-anchor state. -/
theorem claim_C10 (sizes aspect_ratios : Params) (strides : List ℕ)
    (offset : ℝ) (g : AnchorGenerator)
    (h : AnchorGenerator.init sizes aspect_ratios strides offset = .ok g) :
    g.num_cell_anchors = g.num_anchors ∧
    g.num_anchors.length = strides.length ∧
    g.num_anchors =
      (g.sizes.zip g.aspect_ratios).map fun p => p.1.length * p.2.length := by
  obtain ⟨hstr, hoff, hb1, hb2, hc⟩ := init_ok_elim h
  have hs := broadcast_ok_length hb1
  have ha := broadcast_ok_length hb2
  have hmap := calcAnchors_lengths hc
  refine ⟨rfl, ?_, hmap⟩
  unfold AnchorGenerator.num_anchors
  rw [List.length_map, calcAnchors_length hc, List.length_zip, hs, ha, min_self]

/-- Witness for C10 on a concrete one-level construction. -/
theorem claim_C10_witness :
    (sampleGen1 0).num_cell_anchors = (sampleGen1 0).num_anchors ∧
    (sampleGen1 0).num_anchors = [1] := by
  obtain ⟨h1, h2, h3⟩ :=
    claim_C10 (Params.flat [2]) (Params.flat [1]) [1] 0 (sampleGen1 0)
      (init_sample1 0)
  refine ⟨h1, ?_⟩
  rw [h3]
  simp [sampleGen1]

/-- C4 (amended): for a non-empty conforming feature-shape list, forward
returns a single-element list holding the concatenation of the per-level
outputs in level order; the concatenation length is the sum of the per-level
counts H_i * W_i * K_i, and the per-level outputs (as produced by
grid_anchors) have exactly those lengths, one per level.  The original claim
fails because forward does not return the per-level sequences alongside the
concatenation; with zero levels forward raises torch.cat's empty-list error
instead of returning anything. -/
theorem claim_C4_amended (g : AnchorGenerator) (shapes : List (ℕ × ℕ))
    (h0 : 0 ≤ g.offset) (h1 : g.offset < 1)
    (hc : ∀ t ∈ zip3 shapes g.strides g.cell_anchors,
      0 < t.2.1 ∧ 0 < t.1.1 ∧ 0 < t.1.2)
    (hne : shapes ≠ [])
    (hl1 : shapes.length = g.strides.length)
    (hl2 : g.cell_anchors.length = g.strides.length) :
    ∃ levels, g.grid_anchors shapes = .ok levels ∧
      g.forward shapes = .ok [levels.flatten] ∧
      levels.length = shapes.length ∧
      levels.map List.length =
        (zip3 shapes g.strides g.cell_anchors).map
          (fun t => t.1.1 * t.1.2 * t.2.2.length) ∧
      levels.flatten.length =
        ((zip3 shapes g.strides g.cell_anchors).map
          fun t => t.1.1 * t.1.2 * t.2.2.length).sum := by
  obtain ⟨levels, hga, hmap, hflat, hfe, hfne⟩ := forward_ok g shapes h0 h1 hc
  have hlev : levels.length = shapes.length := by
    have hl := congrArg List.length hmap
    simp only [List.length_map] at hl
    rw [hl]
    unfold zip3
    rw [List.length_zip, List.length_zip, hl1, hl2, min_self, min_self]
  have hlne : levels ≠ [] := by
    intro h
    apply hne
    apply List.length_eq_zero.mp
    rw [← hlev, h]
    rfl
  exact ⟨levels, hga, hfne hlne, hlev, hmap, hflat⟩

/-- Witness for the amended C4 on a concrete two-level generator with a
2-entry shape list: per-level counts [1, 1] and a concatenation of length
2. -/
theorem claim_C4_witness :
    ((sampleGen2 0).grid_anchors [(1, 1), (1, 1)]).map
      (fun ls => ls.map List.length) = .ok [1, 1] ∧
    ((sampleGen2 0).forward [(1, 1), (1, 1)]).map
      (fun out => out.flatten.length) = .ok 2 := by
  obtain ⟨levels, hga, hfwd, hlev, hmap, hflat⟩ :=
    claim_C4_amended (sampleGen2 0) [(1, 1), (1, 1)] le_rfl (by norm_num [sampleGen2])
      (sample2_cond [(1, 1), (1, 1)] (by decide))
      (by simp) (by simp [sampleGen2]) (by simp [sampleGen2])
  have hmap2 : levels.map List.length = [1, 1] := by
    rw [hmap]
    simp [zip3, sampleGen2]
  have hf2 : levels.flatten.length = 2 := by
    rw [hflat]
    simp [zip3, sampleGen2]
  constructor
  · rw [hga]
    simp [Except.map, hmap2]
  · rw [hfwd]
    simp [Except.map, hf2]

/-- Counterexample for C4 as stated: on a constructed two-level generator,
forward returns a list with a single entry of length 2 (the concatenation);
the returned list does not consist of one sequence per level of length
H_i * W_i * num_cell_anchors_i = 1 plus a concatenation. -/
theorem claim_C4_counterexample :
    AnchorGenerator.init (Params.flat [2]) (Params.flat [1]) [1, 1] 0 =
      .ok (sampleGen2 0) ∧
    ((sampleGen2 0).forward [(1, 1), (1, 1)]).map
      (fun out => out.map List.length) = .ok [2] := by
  refine ⟨init_sample2 0, ?_⟩
  obtain ⟨levels, hga, hmap, hflat, hfe, hfne⟩ :=
    forward_ok (sampleGen2 0) [(1, 1), (1, 1)] le_rfl (by norm_num [sampleGen2])
      (sample2_cond [(1, 1), (1, 1)] (by decide))
  have hmap2 : levels.map List.length = [1, 1] := by
    rw [hmap]
    simp [zip3, sampleGen2]
  have hne : levels ≠ [] := by
    intro h
    rw [h] at hmap2
    simp at hmap2
  have hf2 : levels.flatten.length = 2 := by
    rw [hflat]
    simp [zip3, sampleGen2]
  rw [hfne hne]
  simp [Except.map, hf2]

/-- C6 (amended): a feature-shape count differing from the level count
triggers no validation error: zip silently truncates to the shortest of the
shape, stride and cell-anchor lists; grid_anchors succeeds with that many
per-level outputs, and forward succeeds with their concatenation whenever the
truncation is non-empty; when it is empty (for example an empty shape list),
forward raises torch.cat's empty-list error rather than any shape-count
check. -/
theorem claim_C6_amended (g : AnchorGenerator) (shapes : List (ℕ × ℕ))
    (h0 : 0 ≤ g.offset) (h1 : g.offset < 1)
    (hc : ∀ t ∈ zip3 shapes g.strides g.cell_anchors,
      0 < t.2.1 ∧ 0 < t.1.1 ∧ 0 < t.1.2) :
    ∃ levels, g.grid_anchors shapes = .ok levels ∧
      levels.length =
        min shapes.length (min g.strides.length g.cell_anchors.length) ∧
      (levels ≠ [] → g.forward shapes = .ok [levels.flatten]) ∧
      (levels = [] → g.forward shapes = .error PyError.catEmptyList) := by
  obtain ⟨levels, hga, hmap, hflat, hfe, hfne⟩ := forward_ok g shapes h0 h1 hc
  refine ⟨levels, hga, ?_, hfne, hfe⟩
  have hl := congrArg List.length hmap
  simp only [List.length_map] at hl
  rw [hl]
  unfold zip3
  rw [List.length_zip, List.length_zip]

/-- Witness for the amended C6: a two-level generator called with one feature
shape yields exactly min 1 2 = 1 level of output, and forward succeeds on
it. -/
theorem claim_C6_witness :
    ((sampleGen2 0).grid_anchors [(1, 1)]).map List.length = .ok 1 ∧
    ((sampleGen2 0).forward [(1, 1)]).map List.length = .ok 1 := by
  obtain ⟨levels, hga, hlen, hfne, hfe⟩ :=
    claim_C6_amended (sampleGen2 0) [(1, 1)] le_rfl (by norm_num [sampleGen2])
      (sample2_cond [(1, 1)] (by decide))
  have hlen2 : levels.length = 1 := by
    rw [hlen]
    simp [sampleGen2]
  have hne : levels ≠ [] := by
    intro h
    rw [h] at hlen2
    simp at hlen2
  constructor
  · rw [hga]
    simp [Except.map, hlen2]
  · rw [hfne hne]
    simp [Except.map]

/-- Counterexample for C6 as stated: a constructed two-level generator accepts
a one-entry feature-shape list without any error: grid_anchors and forward
both succeed, silently producing output for a single level (of length
1 * 1 * 1) instead of failing with InvalidConfiguration. -/
theorem claim_C6_counterexample :
    AnchorGenerator.init (Params.flat [2]) (Params.flat [1]) [1, 1] 0 =
      .ok (sampleGen2 0) ∧
    ((sampleGen2 0).grid_anchors [(1, 1)]).map
      (fun ls => ls.map List.length) = .ok [1] ∧
    ((sampleGen2 0).forward [(1, 1)]).map
      (fun out => out.map List.length) = .ok [1] := by
  refine ⟨init_sample2 0, ?_, ?_⟩ <;>
  · obtain ⟨levels, hga, hmap, hflat, hfe, hfne⟩ :=
      forward_ok (sampleGen2 0) [(1, 1)] le_rfl (by norm_num [sampleGen2])
        (sample2_cond [(1, 1)] (by decide))
    have hmap2 : levels.map List.length = [1] := by
      rw [hmap]
      simp [zip3, sampleGen2]
    have hne : levels ≠ [] := by
      intro h
      rw [h] at hmap2
      simp at hmap2
    have hf1 : levels.flatten.length = 1 := by
      rw [hflat]
      simp [zip3, sampleGen2]
    first
    | (rw [hga]; simp [Except.map, hmap2])
    | (rw [hfne hne]; simp [Except.map, hf1])

/-- C7 (amended): construction does not validate offset at all: whenever
construction succeeds with offset 0 it also succeeds with any other offset,
producing the same state except for the stored offset value. -/
theorem claim_C7_amended (sizes aspect_ratios : Params) (strides : List ℕ)
    (offset : ℝ) (g₀ : AnchorGenerator)
    (h : AnchorGenerator.init sizes aspect_ratios strides 0 = .ok g₀) :
    AnchorGenerator.init sizes aspect_ratios strides offset =
      .ok ⟨g₀.strides, g₀.sizes, g₀.aspect_ratios, g₀.cell_anchors, offset⟩ := by
  obtain ⟨hstr, hoff, hb1, hb2, hc⟩ := init_ok_elim h
  simp only [AnchorGenerator.init, hb1, hb2, hc, hstr]

/-- Witness for the amended C7: the concrete one-level construction succeeds
at offset 1, which lies outside [0, 1). -/
theorem claim_C7_witness :
    AnchorGenerator.init (Params.flat [2]) (Params.flat [1]) [1] 1 =
      .ok ⟨(sampleGen1 0).strides, (sampleGen1 0).sizes,
        (sampleGen1 0).aspect_ratios, (sampleGen1 0).cell_anchors, 1⟩ :=
  claim_C7_amended (Params.flat [2]) (Params.flat [1]) [1] 1 (sampleGen1 0)
    (init_sample1 0)

/-- Counterexample for C7 as stated: constructing with offset = 1.0 and with
offset = -0.1 succeeds (no error), and the out-of-range offset is stored. -/
theorem claim_C7_counterexample :
    AnchorGenerator.init (Params.flat [2]) (Params.flat [1]) [1] 1 =
      .ok (sampleGen1 1) ∧
    AnchorGenerator.init (Params.flat [2]) (Params.flat [1]) [1] (-(1 / 10)) =
      .ok (sampleGen1 (-(1 / 10))) ∧
    (sampleGen1 1).offset = 1 :=
  ⟨init_sample1 1, init_sample1 (-(1 / 10)), rfl⟩

/-- C8 (amended): cell-anchor synthesis fails at construction time whenever
some aspect ratio is non-positive, provided the size list is non-empty with
nonzero entries (a zero aspect ratio raises the division-by-zero error, a
negative one the sqrt domain error).  A non-positive size alone does not make
construction fail. -/
theorem claim_C8_amended (sizes ratios : List ℝ) (hne : sizes ≠ [])
    (hz : ∀ x ∈ sizes, x ≠ 0) (r : ℝ) (hr : r ∈ ratios) (hr0 : r ≤ 0) :
    exceptIsOk (generate_cell_anchors sizes ratios) = false := by
  obtain ⟨e, he⟩ := generate_err hne hz hr hr0
  rw [he]
  rfl

/-- Witness for the amended C8: size 2 with aspect ratio -1 fails. -/
theorem claim_C8_witness :
    exceptIsOk (generate_cell_anchors [2] [-1]) = false :=
  claim_C8_amended [2] [-1] (by simp) (by norm_num) (-1) (by simp) (by norm_num)

/-- Counterexample for C8 as stated: the non-positive size 0 does not make
cell-anchor synthesis or construction fail: both succeed, producing the
degenerate all-zero box. -/
theorem claim_C8_counterexample :
    generate_cell_anchors [0] [1] = .ok [Box.mk 0 0 0 0] ∧
    AnchorGenerator.init (Params.flat [0]) (Params.flat [1]) [1] 0 =
      .ok ⟨[1], [[0]], [[1]], [[Box.mk 0 0 0 0]], 0⟩ := by
  have h01 : cellAnchor 0 1 = .ok (Box.mk 0 0 0 0) := by
    rw [cellAnchor_pos 0 one_pos, cellBox_zero]
  exact ⟨by simp [generate_cell_anchors, anchorsForSize, h01], init_sample_zero⟩

end
